import Mathlib

/-!
A shallow embedding of the fail2ban traefik middleware (`fail2ban.go`) and
proofs about its ban-state machine.

Modelling conventions:
* `time.Time` and `time.Duration` are modelled as unbounded `Int`
  (nanoseconds); Go's zero `time.Time` is the integer `0`.
  `t.After(u)` is strict `u < t`, `t.Add(d)` is `t + d`.
* The Go `map[string]*client` is modelled as an association list
  `List (String × Client)`; map update mutates the entry in place
  (`updateClient`), deletion removes it (`deleteClient`).
* `uint` counters are modelled as `Nat` (the counter grows by at most one
  per HTTP request, so machine-width wraparound is unreachable in any run).
* HTTP status codes (Go `int`) are modelled as `Int`.
-/

namespace Fail2BanModel

/-- Go `time.Time`, as an instant on an integer timeline. -/
abbrev Time := Int

/-- Go `time.Duration`. -/
abbrev Duration := Int

/-- Go `http.StatusForbidden`. -/
def statusForbidden : Int := 403

/-- Go `http.StatusAccepted`. -/
def statusAccepted : Int := 202

/-- Go `http.StatusBadRequest`. -/
def statusBadRequest : Int := 400

/-- Go `http.StatusInternalServerError`. -/
def statusInternalServerError : Int := 500

/-- The per-client tracking struct `client` of `fail2ban.go`:
`lastViewed time.Time; failCounter uint`. -/
structure Client where
  lastViewed : Time
  failCounter : Nat
  deriving DecidableEq, Repr

/-- `func (c client) hasBanExpired(currentTime time.Time, d time.Duration) bool`:
`currentTime.After(c.lastViewed.Add(d))`, a strict comparison. -/
def Client.hasBanExpired (c : Client) (currentTime : Time) (d : Duration) : Bool :=
  decide (c.lastViewed + d < currentTime)

/-- The `fail2Ban` struct: configuration plus the `bannedClients` table.
The mutex, logger and boilerplate fields play no role in the state machine. -/
structure Fail2Ban where
  maxFails : Nat
  banTime : Duration
  clientHeader : String
  bannedClients : List (String × Client)
  deriving DecidableEq, Repr

/-- In-place mutation `f.bannedClients[ip].field = v` of a Go map entry:
replace the value stored under `ip`, leaving every other entry alone. -/
def updateClient (tbl : List (String × Client)) (ip : String) (c : Client) :
    List (String × Client) :=
  tbl.map fun p => if p.1 = ip then (ip, c) else p

/-- Go `delete(f.bannedClients, ip)`. -/
def deleteClient (tbl : List (String × Client)) (ip : String) :
    List (String × Client) :=
  tbl.filter fun p => decide (p.1 ≠ ip)

/-- `func (f *fail2Ban) isClientBanned(ip string) bool`, with the ambient
`time.Now()` passed in as `now`.  Returns the Go return value together with
the table state after the call (the Go code mutates `f` in place). -/
def isClientBanned (f : Fail2Ban) (ip : String) (now : Time) : Bool × Fail2Ban :=
  match f.bannedClients.lookup ip with
  | none => (false, f)
  | some c =>
    if f.maxFails ≤ c.failCounter then
      if c.hasBanExpired now f.banTime then
        (false, { f with bannedClients := deleteClient f.bannedClients ip })
      else
        let tbl := updateClient f.bannedClients ip ⟨now, c.failCounter + 1⟩
        (true, { f with bannedClients := tbl })
    else (false, f)

/-- `func (f *fail2Ban) incrementViewCounter(ip string)`, with `time.Now()`
passed in as `now`.  On a missing entry the Go code stores
`&client{failCounter: 1}`, so `lastViewed` stays at the zero time (`0` here);
on an existing entry it sets `lastViewed = now` and increments `failCounter`. -/
def incrementViewCounter (f : Fail2Ban) (ip : String) (now : Time) : Fail2Ban :=
  match f.bannedClients.lookup ip with
  | none => { f with bannedClients := (ip, ⟨0, 1⟩) :: f.bannedClients }
  | some c =>
    let tbl := updateClient f.bannedClients ip ⟨now, c.failCounter + 1⟩
    { f with bannedClients := tbl }

/-- The body of one `cleaner` tick: iterate over the table and delete every
entry whose ban has expired (`for ip, c := range ... if c.hasBanExpired`). -/
def cleanerSweep (banTime : Duration) (now : Time) :
    List (String × Client) → List (String × Client)
  | [] => []
  | p :: rest =>
    if p.2.hasBanExpired now banTime then cleanerSweep banTime now rest
    else p :: cleanerSweep banTime now rest

/-- One tick of the `cleaner` goroutine applied to the whole state. -/
def sweep (f : Fail2Ban) (now : Time) : Fail2Ban :=
  { f with bannedClients := cleanerSweep f.banTime now f.bannedClients }

/-- The `interceptor` struct: wraps the response writer, remembering the last
status code written downstream. -/
structure Interceptor where
  code : Int
  deriving DecidableEq, Repr

/-- `func newIntercept(w http.ResponseWriter) *interceptor`: the recorded code
starts out as `http.StatusAccepted`. -/
def newIntercept : Interceptor := ⟨statusAccepted⟩

/-- `func (i *interceptor) WriteHeader(code int)` (the recording half; the
pass-through to the wrapped writer carries no state). -/
def Interceptor.writeHeader (_ : Interceptor) (code : Int) : Interceptor :=
  ⟨code⟩

/-- `func (i *interceptor) checkBadUserRequestStatusCode() bool`:
`i.code >= http.StatusBadRequest && i.code < http.StatusInternalServerError`. -/
def Interceptor.checkBadUserRequestStatusCode (i : Interceptor) : Bool :=
  decide (statusBadRequest ≤ i.code ∧ i.code < statusInternalServerError)

/-- An inbound `*http.Request`, reduced to the two fields the middleware
reads: `req.Header.Get` (total, returning `""` for an absent header, as in
Go) and `req.RemoteAddr`. -/
structure Request where
  headers : String → String
  remoteAddr : String

/-- Modelled from the spec: `net.SplitHostPort` is an external collaborator
("extract the host part of the connection's peer address (strip port); fail
... if the peer address cannot be parsed into host/port form").  We split at
the last colon of the address and fail when there is none. -/
def splitLastColon : List Char → Option (List Char × List Char)
  | [] => none
  | c :: rest =>
    match splitLastColon rest with
    | some (h, p) => some (c :: h, p)
    | none => if c = ':' then some ([], rest) else none

/-- Modelled from the spec: host/port decomposition of a peer address. -/
def splitHostPort (hostport : String) : Option (String × String) :=
  match splitLastColon hostport.data with
  | some (h, p) => some (⟨h⟩, ⟨p⟩)
  | none => none

/-- `func (f *fail2Ban) extractClient(req *http.Request) (string, error)`. -/
def extractClient (f : Fail2Ban) (req : Request) : Except String String :=
  if 0 < f.clientHeader.length ∧ (req.headers f.clientHeader).length ≠ 0 then
    Except.ok (req.headers f.clientHeader)
  else
    match splitHostPort req.remoteAddr with
    | none => Except.error "failed to extract Client IP from RemoteAddr"
    | some (client, _) => Except.ok client

/-- The observable outcome of one `ServeHTTP` call: the status the caller
sees (`403` on the reject paths, the intercepted downstream code otherwise),
whether `f.next.ServeHTTP` ran, and the table state afterwards. -/
structure ServeResult where
  status : Int
  downstreamInvoked : Bool
  state : Fail2Ban
  deriving Repr

/-- `func (f *fail2Ban) ServeHTTP(rw, req)`.  The downstream handler is
abstracted as the last status code it writes through the interceptor
(`none` when it never calls `WriteHeader`); `now` stands for `time.Now()`. -/
def serveHTTP (f : Fail2Ban) (req : Request) (now : Time)
    (down : Request → Option Int) : ServeResult :=
  match extractClient f req with
  | Except.error _ => ⟨statusForbidden, false, f⟩
  | Except.ok client =>
    let r := isClientBanned f client now
    if r.1 then ⟨statusForbidden, false, r.2⟩
    else
      let i : Interceptor :=
        match down req with
        | some code => newIntercept.writeHeader code
        | none => newIntercept
      if i.checkBadUserRequestStatusCode then
        ⟨i.code, true, incrementViewCounter r.2 client now⟩
      else
        ⟨i.code, true, r.2⟩

end Fail2BanModel

namespace Fail2BanModel

/-! ### Lemmas about the table primitives -/

theorem lookup_cons_self {k : String} {v : Client} {rest : List (String × Client)} :
    List.lookup k ((k, v) :: rest) = some v := by
  simp [List.lookup]

theorem lookup_cons_ne {a k : String} {v : Client} {rest : List (String × Client)}
    (h : a ≠ k) :
    List.lookup a ((k, v) :: rest) = List.lookup a rest := by
  have hb : (a == k) = false := beq_eq_false_iff_ne.mpr h
  simp [List.lookup, hb]

theorem lookup_updateClient (tbl : List (String × Client)) (ip : String)
    (c : Client) :
    (updateClient tbl ip c).lookup ip = (tbl.lookup ip).map fun _ => c := by
  induction tbl with
  | nil => rfl
  | cons p rest ih =>
    obtain ⟨k, v⟩ := p
    by_cases h : k = ip
    · subst h
      simp [updateClient, lookup_cons_self]
    · simp only [updateClient, List.map_cons, if_neg h,
        lookup_cons_ne (Ne.symm h)]
      exact ih

theorem lookup_deleteClient (tbl : List (String × Client)) (ip : String) :
    (deleteClient tbl ip).lookup ip = none := by
  induction tbl with
  | nil => rfl
  | cons p rest ih =>
    obtain ⟨k, v⟩ := p
    by_cases h : k = ip
    · simpa [deleteClient, List.filter_cons, h] using ih
    · simp only [deleteClient, List.filter_cons] at ih ⊢
      rw [if_pos (by simpa using h)]
      rw [lookup_cons_ne (Ne.symm h)]
      exact ih

theorem mem_updateClient {tbl : List (String × Client)} {ip : String}
    {c : Client} {p : String × Client} (hp : p ∈ updateClient tbl ip c) :
    p = (ip, c) ∨ p ∈ tbl := by
  rcases List.mem_map.1 hp with ⟨q, hq, hqe⟩
  by_cases h : q.1 = ip
  · rw [if_pos h] at hqe
    exact Or.inl hqe.symm
  · rw [if_neg h] at hqe
    exact Or.inr (hqe ▸ hq)

theorem mem_deleteClient {tbl : List (String × Client)} {ip : String}
    {p : String × Client} (hp : p ∈ deleteClient tbl ip) : p ∈ tbl :=
  List.mem_of_mem_filter hp

theorem cleanerSweep_eq_filter (banTime : Duration) (now : Time)
    (tbl : List (String × Client)) :
    cleanerSweep banTime now tbl
      = tbl.filter fun p => !(p.2.hasBanExpired now banTime) := by
  induction tbl with
  | nil => rfl
  | cons q rest ih =>
    cases h : q.2.hasBanExpired now banTime <;>
      simp [cleanerSweep, h, ih, List.filter_cons]

theorem mem_cleanerSweep {banTime : Duration} {now : Time}
    {tbl : List (String × Client)} {p : String × Client} :
    p ∈ cleanerSweep banTime now tbl ↔
      p ∈ tbl ∧ p.2.hasBanExpired now banTime = false := by
  rw [cleanerSweep_eq_filter]
  simp [List.mem_filter]

theorem length_cleanerSweep (banTime : Duration) (now : Time)
    (tbl : List (String × Client)) :
    (cleanerSweep banTime now tbl).length
      = tbl.countP fun p => !(p.2.hasBanExpired now banTime) := by
  rw [cleanerSweep_eq_filter, List.countP_eq_length_filter]

/-! ### Claims C1-C4: the ban state machine -/

/-- Claim C1 (amended): `incrementViewCounter` on an identity with no record
creates a record with `failureCount = 1` and `lastSeen` left at the **zero
timestamp** (the Go zero `time.Time`, not `now`); on an identity whose record
already exists it increments `failureCount` by one and sets `lastSeen = now`. -/
theorem claim1_incrementViewCounter (f : Fail2Ban) (ip : String) (now : Time) :
    (f.bannedClients.lookup ip = none →
      (incrementViewCounter f ip now).bannedClients.lookup ip
        = some ⟨0, 1⟩) ∧
    (∀ c, f.bannedClients.lookup ip = some c →
      (incrementViewCounter f ip now).bannedClients.lookup ip
        = some ⟨now, c.failCounter + 1⟩) := by
  constructor
  · intro h
    simp [incrementViewCounter, h, lookup_cons_self]
  · intro c h
    simp [incrementViewCounter, h, lookup_updateClient]

/-- Claim C1 counterexample: recording the first failure of a fresh identity
at time `5` does **not** store `lastSeen = now = 5` (the code stores the zero
timestamp instead). -/
theorem claim1_counterexample :
    ¬ ((incrementViewCounter ⟨3, 10, "", []⟩ "a" 5).bannedClients.lookup "a"
        = some ⟨5, 1⟩) := by
  decide

/-- Witness for `claim1_incrementViewCounter` at concrete inputs. -/
theorem claim1_witness :
    (incrementViewCounter ⟨3, 10, "", []⟩ "a" 5).bannedClients.lookup "a"
      = some ⟨0, 1⟩ ∧
    (incrementViewCounter ⟨3, 10, "", [("a", ⟨7, 1⟩)]⟩ "a" 5).bannedClients.lookup "a"
      = some ⟨5, 2⟩ :=
  ⟨(claim1_incrementViewCounter ⟨3, 10, "", []⟩ "a" 5).1 rfl,
   (claim1_incrementViewCounter ⟨3, 10, "", [("a", ⟨7, 1⟩)]⟩ "a" 5).2 ⟨7, 1⟩ rfl⟩

/-- Claim C2: for an identity whose record has `failureCount >= threshold`
and whose ban window has not elapsed (`now ≤ lastSeen + banDuration`),
`isClientBanned` returns `true`, increments `failureCount` and sets
`lastSeen = now` (ban extension). -/
theorem claim2_extendBan (f : Fail2Ban) (ip : String) (now : Time) (c : Client)
    (hc : f.bannedClients.lookup ip = some c)
    (hth : f.maxFails ≤ c.failCounter)
    (hwin : now ≤ c.lastViewed + f.banTime) :
    (isClientBanned f ip now).1 = true ∧
    (isClientBanned f ip now).2.bannedClients.lookup ip
      = some ⟨now, c.failCounter + 1⟩ := by
  have hexp : c.hasBanExpired now f.banTime = false := by
    simp only [Client.hasBanExpired, decide_eq_false_iff_not]
    exact not_lt.mpr hwin
  constructor <;> simp [isClientBanned, hc, hth, hexp, lookup_updateClient]

/-- Witness for `claim2_extendBan` at concrete inputs. -/
theorem claim2_witness :
    (isClientBanned ⟨3, 10, "", [("a", ⟨100, 3⟩)]⟩ "a" 105).1 = true ∧
    (isClientBanned ⟨3, 10, "", [("a", ⟨100, 3⟩)]⟩ "a" 105).2.bannedClients.lookup "a"
      = some ⟨105, 4⟩ :=
  claim2_extendBan ⟨3, 10, "", [("a", ⟨100, 3⟩)]⟩ "a" 105 ⟨100, 3⟩ rfl
    (by decide) (by decide)

/-- Claim C3: for an identity whose record has `failureCount >= threshold`,
`isClientBanned` deletes the record and returns `false` when
`now > lastSeen + banDuration` (lazy unban on access), while at the exact
boundary `now = lastSeen + banDuration` the client is still banned (strict
`After`, not `>=`). -/
theorem claim3_expiry (f : Fail2Ban) (ip : String) (now : Time) (c : Client)
    (hc : f.bannedClients.lookup ip = some c)
    (hth : f.maxFails ≤ c.failCounter) :
    (c.lastViewed + f.banTime < now →
      (isClientBanned f ip now).1 = false ∧
      (isClientBanned f ip now).2.bannedClients.lookup ip = none) ∧
    (now = c.lastViewed + f.banTime →
      (isClientBanned f ip now).1 = true) := by
  constructor
  · intro hlt
    have hexp : c.hasBanExpired now f.banTime = true := by
      simp [Client.hasBanExpired, hlt]
    constructor <;> simp [isClientBanned, hc, hth, hexp, lookup_deleteClient]
  · intro heq
    have hexp : c.hasBanExpired now f.banTime = false := by
      simp only [Client.hasBanExpired, decide_eq_false_iff_not]
      exact not_lt.mpr (le_of_eq heq)
    simp [isClientBanned, hc, hth, hexp]

/-- Witness for `claim3_expiry`: ban placed at `100` with window `10` is
deleted at `111`, but still enforced at exactly `110`. -/
theorem claim3_witness :
    ((isClientBanned ⟨3, 10, "", [("a", ⟨100, 3⟩)]⟩ "a" 111).1 = false ∧
     (isClientBanned ⟨3, 10, "", [("a", ⟨100, 3⟩)]⟩ "a" 111).2.bannedClients.lookup "a"
       = none) ∧
    (isClientBanned ⟨3, 10, "", [("a", ⟨100, 3⟩)]⟩ "a" 110).1 = true :=
  ⟨(claim3_expiry ⟨3, 10, "", [("a", ⟨100, 3⟩)]⟩ "a" 111 ⟨100, 3⟩ rfl
      (by decide)).1 (by decide),
   (claim3_expiry ⟨3, 10, "", [("a", ⟨100, 3⟩)]⟩ "a" 110 ⟨100, 3⟩ rfl
      (by decide)).2 (by decide)⟩

/-- Claim C4: with no record, or a record with `failureCount < threshold`,
`isClientBanned` returns `false` and leaves the whole state unchanged; the
comparison is `>=`, so a record with `failureCount = threshold` exactly is
banned (when its window has not elapsed). -/
theorem claim4_threshold (f : Fail2Ban) (ip : String) (now : Time) :
    (f.bannedClients.lookup ip = none →
      isClientBanned f ip now = (false, f)) ∧
    (∀ c, f.bannedClients.lookup ip = some c → c.failCounter < f.maxFails →
      isClientBanned f ip now = (false, f)) ∧
    (∀ c, f.bannedClients.lookup ip = some c → c.failCounter = f.maxFails →
      now ≤ c.lastViewed + f.banTime →
      (isClientBanned f ip now).1 = true) := by
  refine ⟨fun h => by simp [isClientBanned, h],
    fun c h hlt => ?_, fun c h heq hwin => ?_⟩
  · have hnle : ¬ f.maxFails ≤ c.failCounter := by omega
    simp [isClientBanned, h, hnle]
  · have hth : f.maxFails ≤ c.failCounter := by omega
    have hexp : c.hasBanExpired now f.banTime = false := by
      simp only [Client.hasBanExpired, decide_eq_false_iff_not]
      exact not_lt.mpr hwin
    simp [isClientBanned, h, hth, hexp]

/-- Witness for `claim4_threshold` at concrete inputs: an unseen identity, a
tracked identity below threshold, and a record exactly at the threshold. -/
theorem claim4_witness :
    isClientBanned ⟨3, 10, "", []⟩ "a" 5 = (false, ⟨3, 10, "", []⟩) ∧
    isClientBanned ⟨3, 10, "", [("a", ⟨7, 1⟩)]⟩ "a" 5
      = (false, ⟨3, 10, "", [("a", ⟨7, 1⟩)]⟩) ∧
    (isClientBanned ⟨3, 10, "", [("a", ⟨100, 3⟩)]⟩ "a" 105).1 = true :=
  ⟨(claim4_threshold ⟨3, 10, "", []⟩ "a" 5).1 rfl,
   (claim4_threshold ⟨3, 10, "", [("a", ⟨7, 1⟩)]⟩ "a" 5).2.1 ⟨7, 1⟩ rfl (by decide),
   (claim4_threshold ⟨3, 10, "", [("a", ⟨100, 3⟩)]⟩ "a" 105).2.2 ⟨100, 3⟩ rfl rfl
     (by decide)⟩


/-! ### Claims C5-C7: sweep, invariant, fail-closed admission -/

/-- Claim C5: one cleaner sweep at time `now` keeps exactly the records with
`¬ (lastSeen + banDuration < now)` (deleting exactly the expired ones), and
the table length afterwards is the count of non-expired records before. -/
theorem claim5_sweep (f : Fail2Ban) (now : Time) :
    (∀ ip c, (ip, c) ∈ (sweep f now).bannedClients ↔
      ((ip, c) ∈ f.bannedClients ∧ ¬ (c.lastViewed + f.banTime < now))) ∧
    (sweep f now).bannedClients.length
      = f.bannedClients.countP
          fun p => !(decide (p.2.lastViewed + f.banTime < now)) := by
  constructor
  · intro ip c
    simp [sweep, mem_cleanerSweep, Client.hasBanExpired]
  · simp [sweep, length_cleanerSweep, Client.hasBanExpired]

/-- Claim C6: if every record in the table has `failureCount ≥ 1`, the table
left by `incrementViewCounter`, by `isClientBanned` and by a cleaner sweep
satisfies the same invariant: records are created with count `1` and
otherwise only incremented or deleted, never stored with count `0`. -/
theorem claim6_invariant (f : Fail2Ban) (ip : String) (now : Time)
    (hinv : ∀ p ∈ f.bannedClients, 1 ≤ p.2.failCounter) :
    (∀ p ∈ (incrementViewCounter f ip now).bannedClients, 1 ≤ p.2.failCounter) ∧
    (∀ p ∈ (isClientBanned f ip now).2.bannedClients, 1 ≤ p.2.failCounter) ∧
    (∀ p ∈ (sweep f now).bannedClients, 1 ≤ p.2.failCounter) := by
  have hstate : (isClientBanned f ip now).2.bannedClients = f.bannedClients ∨
      (isClientBanned f ip now).2.bannedClients = deleteClient f.bannedClients ip ∨
      ∃ c : Client, (isClientBanned f ip now).2.bannedClients
        = updateClient f.bannedClients ip ⟨now, c.failCounter + 1⟩ := by
    cases hlk : f.bannedClients.lookup ip with
    | none => simp [isClientBanned, hlk]
    | some c =>
      by_cases hth : f.maxFails ≤ c.failCounter
      · by_cases hexp : c.hasBanExpired now f.banTime = true
        · simp [isClientBanned, hlk, hth, hexp]
        · simp only [isClientBanned, hlk, if_pos hth, if_neg hexp]
          exact Or.inr (Or.inr ⟨c, rfl⟩)
      · simp [isClientBanned, hlk, hth]
  refine ⟨?_, ?_, ?_⟩
  · intro p hp
    cases hlk : f.bannedClients.lookup ip with
    | none =>
      simp only [incrementViewCounter, hlk] at hp
      rcases List.mem_cons.1 hp with rfl | hmem
      · exact le_refl 1
      · exact hinv p hmem
    | some c =>
      simp only [incrementViewCounter, hlk] at hp
      rcases mem_updateClient hp with rfl | hmem
      · exact Nat.le_add_left 1 c.failCounter
      · exact hinv p hmem
  · intro p hp
    rcases hstate with h | h | ⟨c, h⟩
    · exact hinv p (h ▸ hp)
    · exact hinv p (mem_deleteClient (h ▸ hp))
    · rcases mem_updateClient (h ▸ hp) with rfl | hmem
      · exact Nat.le_add_left 1 c.failCounter
      · exact hinv p hmem
  · intro p hp
    exact hinv p (mem_cleanerSweep.1 hp).1

/-- Witness for `claim6_invariant`: the record freshly created for identity
`b` carries `failureCount = 1`. -/
theorem claim6_witness : 1 ≤ (Client.mk 0 1).failCounter :=
  (claim6_invariant ⟨3, 10, "", [("a", ⟨100, 3⟩)]⟩ "b" 105 (by decide)).1
    ("b", ⟨0, 1⟩) (by decide)

/-- Claim C7: when identity resolution fails, or the resolved identity is
banned, `serveHTTP` answers `403` and never invokes the downstream handler. -/
theorem claim7_failClosed (f : Fail2Ban) (req : Request) (now : Time)
    (down : Request → Option Int) :
    (∀ e, extractClient f req = Except.error e →
      (serveHTTP f req now down).status = statusForbidden ∧
      (serveHTTP f req now down).downstreamInvoked = false) ∧
    (∀ client, extractClient f req = Except.ok client →
      (isClientBanned f client now).1 = true →
      (serveHTTP f req now down).status = statusForbidden ∧
      (serveHTTP f req now down).downstreamInvoked = false) := by
  constructor
  · intro e he
    simp [serveHTTP, he]
  · intro client hok hban
    simp [serveHTTP, hok, hban]

/-- Witness for `claim7_failClosed`: a request with an unparsable peer
address, and a request from a banned identity, both draw `403` without the
downstream handler running. -/
theorem claim7_witness :
    ((serveHTTP ⟨3, 10, "", []⟩ ⟨fun _ => "", "1.2.3.4"⟩ 5
        fun _ => some 200).status = statusForbidden ∧
     (serveHTTP ⟨3, 10, "", []⟩ ⟨fun _ => "", "1.2.3.4"⟩ 5
        fun _ => some 200).downstreamInvoked = false) ∧
    ((serveHTTP ⟨3, 10, "", [("a", ⟨100, 3⟩)]⟩ ⟨fun _ => "", "a:1"⟩ 105
        fun _ => some 200).status = statusForbidden ∧
     (serveHTTP ⟨3, 10, "", [("a", ⟨100, 3⟩)]⟩ ⟨fun _ => "", "a:1"⟩ 105
        fun _ => some 200).downstreamInvoked = false) :=
  ⟨(claim7_failClosed ⟨3, 10, "", []⟩ ⟨fun _ => "", "1.2.3.4"⟩ 5
      (fun _ => some 200)).1 "failed to extract Client IP from RemoteAddr"
      rfl,
   (claim7_failClosed ⟨3, 10, "", [("a", ⟨100, 3⟩)]⟩ ⟨fun _ => "", "a:1"⟩ 105
      (fun _ => some 200)).2 "a" rfl (by decide)⟩


/-! ### Claims C8-C10: identity resolution and the response interceptor -/

/-- Claim C8: with a configured header carrying a non-empty value,
`extractClient` returns that value verbatim; otherwise it returns the host
part of the peer address, or an error when the address has no host/port
split. -/
theorem claim8_extractClient (f : Fail2Ban) (req : Request) :
    (0 < f.clientHeader.length → (req.headers f.clientHeader).length ≠ 0 →
      extractClient f req = Except.ok (req.headers f.clientHeader)) ∧
    (¬ (0 < f.clientHeader.length ∧ (req.headers f.clientHeader).length ≠ 0) →
      (∀ host port, splitHostPort req.remoteAddr = some (host, port) →
        extractClient f req = Except.ok host) ∧
      (splitHostPort req.remoteAddr = none →
        extractClient f req
          = Except.error "failed to extract Client IP from RemoteAddr")) := by
  constructor
  · intro h1 h2
    rw [extractClient, if_pos ⟨h1, h2⟩]
  · intro hno
    constructor
    · intro host port hs
      rw [extractClient, if_neg hno, hs]
    · intro hs
      rw [extractClient, if_neg hno, hs]

/-- Witness for `claim8_extractClient`: header override used verbatim;
`"1.2.3.4:5678"` resolves to `"1.2.3.4"`; `"1.2.3.4"` (no port) fails. -/
theorem claim8_witness :
    extractClient ⟨3, 10, "h", []⟩
      ⟨fun s => if s = "h" then "ip" else "", "1.2.3.4:5678"⟩ = Except.ok "ip" ∧
    extractClient ⟨3, 10, "", []⟩ ⟨fun _ => "", "1.2.3.4:5678"⟩
      = Except.ok "1.2.3.4" ∧
    extractClient ⟨3, 10, "", []⟩ ⟨fun _ => "", "1.2.3.4"⟩
      = Except.error "failed to extract Client IP from RemoteAddr" :=
  ⟨(claim8_extractClient ⟨3, 10, "h", []⟩
      ⟨fun s => if s = "h" then "ip" else "", "1.2.3.4:5678"⟩).1
      (by decide) (by decide),
   ((claim8_extractClient ⟨3, 10, "", []⟩ ⟨fun _ => "", "1.2.3.4:5678"⟩).2
      (by decide)).1 "1.2.3.4" "5678" (by decide),
   ((claim8_extractClient ⟨3, 10, "", []⟩ ⟨fun _ => "", "1.2.3.4"⟩).2
      (by decide)).2 (by decide)⟩

/-- Claim C9: an admitted request whose client has no record or a record
below the threshold, and whose observed downstream status is outside
`[400, 500)`, leaves the table exactly as it was: the downstream handler
runs and no record is created, incremented or reset. -/
theorem claim9_noGoodDecay (f : Fail2Ban) (req : Request) (now : Time)
    (down : Request → Option Int) (client : String)
    (hcl : extractClient f req = Except.ok client)
    (hlow : f.bannedClients.lookup client = none ∨
      ∃ c : Client, f.bannedClients.lookup client = some c ∧
        c.failCounter < f.maxFails)
    (hgood : ¬ (statusBadRequest ≤ (down req).getD statusAccepted ∧
      (down req).getD statusAccepted < statusInternalServerError)) :
    (serveHTTP f req now down).state = f ∧
    (serveHTTP f req now down).downstreamInvoked = true := by
  have hban : isClientBanned f client now = (false, f) := by
    rcases hlow with hlk | ⟨c, hlk, hlt⟩
    · simp [isClientBanned, hlk]
    · have hnle : ¬ f.maxFails ≤ c.failCounter := Nat.not_le.mpr hlt
      simp [isClientBanned, hlk, hnle]
  cases hd : down req with
  | none =>
    have hchk : Interceptor.checkBadUserRequestStatusCode newIntercept
        = false := by decide
    constructor <;> simp [serveHTTP, hcl, hban, hd, hchk]
  | some code =>
    rw [hd, Option.getD_some] at hgood
    have hchk : Interceptor.checkBadUserRequestStatusCode
        (newIntercept.writeHeader code) = false := by
      simp only [Interceptor.checkBadUserRequestStatusCode,
        Interceptor.writeHeader, decide_eq_false_iff_not]
      exact hgood
    constructor <;> simp [serveHTTP, hcl, hban, hd, hchk]

/-- Witness for `claim9_noGoodDecay`: a tracked client (one prior failure)
receiving a `200` keeps its table entry untouched. -/
theorem claim9_witness :
    (serveHTTP ⟨3, 10, "", [("a", ⟨7, 1⟩)]⟩ ⟨fun _ => "", "a:1"⟩ 9
        fun _ => some 200).state = ⟨3, 10, "", [("a", ⟨7, 1⟩)]⟩ ∧
    (serveHTTP ⟨3, 10, "", [("a", ⟨7, 1⟩)]⟩ ⟨fun _ => "", "a:1"⟩ 9
        fun _ => some 200).downstreamInvoked = true :=
  claim9_noGoodDecay ⟨3, 10, "", [("a", ⟨7, 1⟩)]⟩ ⟨fun _ => "", "a:1"⟩ 9
    (fun _ => some 200) "a" rfl (Or.inr ⟨⟨7, 1⟩, by decide, by decide⟩)
    (by decide)

/-- Claim C10: the interceptor starts at `202` (`StatusAccepted`), which is
outside `[400, 500)`; hence an admitted request whose downstream handler
never calls `WriteHeader` observes status `202` and records no failure (the
state is exactly the one the ban check left). -/
theorem claim10_interceptDefault (f : Fail2Ban) (req : Request) (now : Time)
    (down : Request → Option Int) (client : String)
    (hcl : extractClient f req = Except.ok client)
    (hban : (isClientBanned f client now).1 = false)
    (hnone : down req = none) :
    newIntercept.code = statusAccepted ∧
    Interceptor.checkBadUserRequestStatusCode newIntercept = false ∧
    (serveHTTP f req now down).status = statusAccepted ∧
    (serveHTTP f req now down).state = (isClientBanned f client now).2 := by
  have hchk : Interceptor.checkBadUserRequestStatusCode ⟨statusAccepted⟩
      = false := by decide
  refine ⟨rfl, hchk, ?_, ?_⟩ <;>
    simp [serveHTTP, hcl, hban, hnone, hchk, newIntercept]

/-- Witness for `claim10_interceptDefault` on a fresh client whose
downstream handler writes no header. -/
theorem claim10_witness :
    newIntercept.code = statusAccepted ∧
    Interceptor.checkBadUserRequestStatusCode newIntercept = false ∧
    (serveHTTP ⟨3, 10, "", []⟩ ⟨fun _ => "", "1.2.3.4:5678"⟩ 5
        fun _ => none).status = statusAccepted ∧
    (serveHTTP ⟨3, 10, "", []⟩ ⟨fun _ => "", "1.2.3.4:5678"⟩ 5
        fun _ => none).state
      = (isClientBanned ⟨3, 10, "", []⟩ "1.2.3.4" 5).2 :=
  claim10_interceptDefault ⟨3, 10, "", []⟩ ⟨fun _ => "", "1.2.3.4:5678"⟩ 5
    (fun _ => none) "1.2.3.4" rfl (by decide) rfl

end Fail2BanModel
